import Mathlib

/-!
Verification of the EntityFu entity-component storage core (EntityFu.cpp).

The C++ source keeps three process-wide tables:
  * `entities   : bool[kMaxEntities]`            — liveness flags,
  * `components : Component**[numCids]`          — per-type slot arrays
    (`components[cid][eid]` is an owned pointer or null),
  * `componentEids : vector<Eid>[numCids]`       — per-type dense id-lists.

We embed this state as a Lean structure with total functions for the
arrays (a null pointer is `Option.none`), and each member function of
`Entity` as a state transformer, translated line by line from the source.
-/

/-- Modelled from the spec: the header EntityFu.h is not part of the given
source.  Per the spec, entity identifiers live in `[0, kMaxEntities)` with
`0` the invalid sentinel, and on pool exhaustion `create()` returns that
sentinel `0`.  This is realised by `Eid` being an unsigned 8-bit integer
and `kMaxEntities = 256`: the scan's `++eid` wraps from 255 to 0, and the
`eid < 1` check then reports exhaustion and returns 0. -/
def kMaxEntities : Nat := 256

/-- Modelled from the spec: `Eid` increments are 8-bit, i.e. modulo 256. -/
def eidSucc (eid : Nat) : Nat := (eid + 1) % 256

namespace Entity

/-- A component instance; the table only ever distinguishes a null pointer
from a non-null one, so an opaque payload suffices. -/
abbrev Component := Nat

end Entity

/-- The process-wide state of the ECS: `allocated` stands for
`components != nullptr`, the other three fields are the tables. -/
@[ext]
structure EcsState where
  allocated : Bool
  entities : Nat → Bool
  components : Nat → Nat → Option Entity.Component
  componentEids : Nat → List Nat

namespace Entity

/-- The state before `alloc`: null pointers everywhere. -/
def initState : EcsState :=
  { allocated := false
    entities := fun _ => false
    components := fun _ _ => none
    componentEids := fun _ => [] }

/-- Model of `Entity::alloc`: no-op when already allocated, otherwise all liveness
flags start false, all slots null, all dense lists empty. -/
def alloc (s : EcsState) : EcsState :=
  if s.allocated then s
  else
    { allocated := true
      entities := fun _ => false
      components := fun _ _ => none
      componentEids := fun _ => [] }

/-- Model of `Entity::removeComponent`: rejects out-of-range or non-live arguments,
no-ops on an empty slot, otherwise deletes the instance, clears the slot
and erases the first occurrence of `eid` from the dense id-list
(`find` + `erase` in the source). -/
def removeComponent (numCids cid eid : Nat) (s : EcsState) : EcsState :=
  if kMaxEntities ≤ eid ∨ s.entities eid = false ∨ numCids ≤ cid then s
  else if s.components cid eid = none then s
  else
    { s with
      components := fun c e =>
        if c = cid ∧ e = eid then none else s.components c e
      componentEids := fun c =>
        if c = cid then (s.componentEids cid).erase eid
        else s.componentEids c }

/-- The tail of `Entity::addComponent`:
`components[cid][eid] = c; componentEids[cid].push_back(eid);`. -/
def addComponentStore (cid eid : Nat) (c : Option Component)
    (s1 : EcsState) : EcsState :=
  { s1 with
    components := fun ci e =>
      if ci = cid ∧ e = eid then c else s1.components ci e
    componentEids := fun ci =>
      if ci = cid then s1.componentEids cid ++ [eid]
      else s1.componentEids ci }

/-- Model of `Entity::addComponent`: rejects a null component and out-of-range or
non-live arguments; if the slot is occupied the old instance is first
removed via `removeComponent`, then the new one is stored and `eid` is
pushed onto the dense id-list. -/
def addComponent (numCids cid eid : Nat) (c : Option Component)
    (s : EcsState) : EcsState :=
  if c = none then s
  else if kMaxEntities ≤ eid ∨ s.entities eid = false ∨ numCids ≤ cid then s
  else addComponentStore cid eid c
    (if s.components cid eid ≠ none
     then removeComponent numCids cid eid s else s)

/-- The last line of `Entity::destroyNow`: `entities[eid] = false;`. -/
def clearFlag (eid : Nat) (s1 : EcsState) : EcsState :=
  { s1 with entities := fun i => if i = eid then false else s1.entities i }

/-- The loop of `Entity::destroyNow`:
`for (cid = 0; cid < numCids; cid++) removeComponent(cid, eid);`,
over an explicit list of `cid`s. -/
def removeLoop (numCids eid : Nat) (L : List Nat) (s : EcsState) : EcsState :=
  L.foldl (fun t cid => removeComponent numCids cid eid t) s

/-- Model of `Entity::destroyNow`: no-op for the sentinel `0`; otherwise removes the
entity's component for every registered `cid` in ascending order, and only
then clears the liveness flag. -/
def destroyNow (numCids eid : Nat) (s : EcsState) : EcsState :=
  if eid = 0 then s
  else clearFlag eid (removeLoop numCids eid (List.range numCids) s)

/-- The loop of `Entity::destroyAll`: scan the given ids in order and
destroy each one that is live at the moment it is visited. -/
def destroyLoop (numCids : Nat) (L : List Nat) (s : EcsState) : EcsState :=
  L.foldl (fun t eid => if t.entities eid then destroyNow numCids eid t else t) s

/-- Model of `Entity::destroyAll`: destroys every currently-live entity, scanning
ids `1 .. kMaxEntities - 1` in ascending order. -/
def destroyAll (numCids : Nat) (s : EcsState) : EcsState :=
  destroyLoop numCids (List.range' 1 (kMaxEntities - 1)) s

/-- The freeing tail of `Entity::dealloc`: the `delete []` calls followed
by nulling the three pointers.  Freed storage is unobservable, so the
result does not depend on the state being freed. -/
def freeAll (_s1 : EcsState) : EcsState :=
  { allocated := false
    entities := fun _ => false
    components := fun _ _ => none
    componentEids := fun _ => [] }

/-- Model of `Entity::dealloc`: when allocated, first destroys every live entity
(`destroyAll`), then frees the slot arrays, the dense lists and the
presence table, leaving all three pointers null; when not allocated the
frees are skipped and the pointers are (re-)set to null. -/
def dealloc (numCids : Nat) (s : EcsState) : EcsState :=
  if s.allocated then freeAll (destroyAll numCids s)
  else freeAll s

/-- The scan loop of `Entity::create`:
`for (; eid < kMaxEntities && entities[eid]; ++eid) {}` with the 8-bit
increment `eidSucc`.  The loop runs at most `kMaxEntities` times in any
state the claims range over (entity 0 is never live), so that much fuel
makes the recursion total without changing its value on those states. -/
def createScan (ent : Nat → Bool) : Nat → Nat → Nat
  | 0, eid => eid
  | fuel + 1, eid =>
      if eid < kMaxEntities ∧ ent eid = true then
        createScan ent fuel (eidSucc eid)
      else eid

/-- The conditional tail of `Entity::create`: if the scanned id is outside
`[1, kMaxEntities)` only log (exhaustion), else mark it live; either way
return the scanned id. -/
def createPost (eid : Nat) (s0 : EcsState) : Nat × EcsState :=
  if eid < 1 ∨ kMaxEntities ≤ eid then (eid, s0)
  else (eid, { s0 with
               entities := fun i => if i = eid then true else s0.entities i })

/-- Model of `Entity::create`: lazily allocates, scans from id 1 for the first
non-live id, and if the result is in `[1, kMaxEntities)` marks it live;
otherwise (exhaustion, where the 8-bit scan has wrapped to 0) only logs.
Returns the scanned id together with the new state. -/
def create (s : EcsState) : Nat × EcsState :=
  createPost (createScan (alloc s).entities kMaxEntities 1) (alloc s)

/-- Model of `Entity::getComponent` in checked mode (`kTrustPointers == 0`):
bounds-validates before indexing, returns null on violation. -/
def getComponent (numCids cid eid : Nat) (s : EcsState) : Option Component :=
  if eid < kMaxEntities ∧ cid < numCids then s.components cid eid
  else none

/-- Model of `Entity::getAll`: the dense id-list for `cid`, or the empty list for an
out-of-range `cid`. -/
def getAll (numCids cid : Nat) (s : EcsState) : List Nat :=
  if cid < numCids then s.componentEids cid else []

/-- Model of `Entity::count()`: number of live ids among `1 .. kMaxEntities - 1`. -/
def count (s : EcsState) : Nat :=
  (List.range' 1 (kMaxEntities - 1)).countP (fun eid => s.entities eid)

/-- Model of `Entity::count(cid)`: size of the dense id-list. -/
def countCid (numCids cid : Nat) (s : EcsState) : Nat :=
  (getAll numCids cid s).length

/-- Invariant I2 of the spec, in the strengthened form the code maintains:
every dense id-list is duplicate-free, and a slot is occupied exactly when
its `eid` is a member of the corresponding dense list. -/
def Inv (s : EcsState) : Prop :=
  ∀ cid, (s.componentEids cid).Nodup ∧
    ∀ eid, ((s.components cid eid).isSome = true ↔ eid ∈ s.componentEids cid)

/-- States reachable from the freshly allocated table by any sequence of
the five mutating operations, with arbitrary arguments. -/
inductive Reachable (numCids : Nat) : EcsState → Prop where
  | init : Reachable numCids (alloc initState)
  | create {s : EcsState} :
      Reachable numCids s → Reachable numCids (Entity.create s).2
  | destroyNow {s : EcsState} (eid : Nat) :
      Reachable numCids s → Reachable numCids (Entity.destroyNow numCids eid s)
  | destroyAll {s : EcsState} :
      Reachable numCids s → Reachable numCids (Entity.destroyAll numCids s)
  | addComponent {s : EcsState} (cid eid : Nat) (c : Option Component) :
      Reachable numCids s →
      Reachable numCids (Entity.addComponent numCids cid eid c s)
  | removeComponent {s : EcsState} (cid eid : Nat) :
      Reachable numCids s →
      Reachable numCids (Entity.removeComponent numCids cid eid s)

/-- A concrete state used to instantiate theorems: entity 1 live, nothing
else.  Definitionally `(create (alloc initState)).2`, the state after the
first `create`. -/
def stateA : EcsState := (create (alloc initState)).2

/-- A concrete state used to instantiate theorems: entity 1 live with a
component of type 0 attached (`numCids = 2`). -/
def stateB : EcsState := addComponent 2 0 1 (some 7) stateA

/-- A concrete state in which every id in `[1, kMaxEntities)` is live. -/
def stateFull : EcsState :=
  { allocated := true
    entities := fun i => decide (1 ≤ i) && decide (i < 256)
    components := fun _ _ => none
    componentEids := fun _ => [] }

end Entity

namespace Entity

/-! ### Basic facts about the operations -/

theorem removeComponent_entities (numCids cid eid : Nat) (s : EcsState) :
    (removeComponent numCids cid eid s).entities = s.entities := by
  unfold removeComponent
  split
  · rfl
  split <;> rfl

theorem removeComponent_allocated (numCids cid eid : Nat) (s : EcsState) :
    (removeComponent numCids cid eid s).allocated = s.allocated := by
  unfold removeComponent
  split
  · rfl
  split <;> rfl

theorem removeComponent_offdiag (numCids cid eid ci : Nat) (s : EcsState)
    (h : ci ≠ cid) :
    (removeComponent numCids cid eid s).components ci = s.components ci ∧
    (removeComponent numCids cid eid s).componentEids ci
      = s.componentEids ci := by
  unfold removeComponent
  split
  · exact ⟨rfl, rfl⟩
  split
  · exact ⟨rfl, rfl⟩
  constructor
  · funext e
    simp [h]
  · simp [h]

theorem removeComponent_components_self (numCids cid eid : Nat)
    (s : EcsState)
    (hg : ¬(kMaxEntities ≤ eid ∨ s.entities eid = false ∨ numCids ≤ cid)) :
    (removeComponent numCids cid eid s).components cid eid = none := by
  unfold removeComponent
  rw [if_neg hg]
  by_cases hm : s.components cid eid = none
  · rw [if_pos hm]
    exact hm
  · rw [if_neg hm]
    simp

theorem inv_removeComponent (numCids cid eid : Nat) {s : EcsState}
    (h : Inv s) : Inv (removeComponent numCids cid eid s) := by
  unfold removeComponent
  split
  · exact h
  split
  · exact h
  intro ci
  obtain ⟨hnd, hmem⟩ := h ci
  by_cases hc : ci = cid
  · subst hc
    refine ⟨by simpa using hnd.erase eid, fun e => ?_⟩
    by_cases he : e = eid
    · subst he
      simp [hnd.not_mem_erase]
    · simpa [he, List.mem_erase_of_ne he] using hmem e
  · refine ⟨by simpa [hc] using hnd, fun e => ?_⟩
    simpa [hc] using hmem e

theorem inv_initAlloc : Inv (alloc initState) := by
  intro cid
  exact ⟨List.nodup_nil, fun eid => by simp [alloc, initState]⟩

theorem inv_alloc {s : EcsState} (h : Inv s) : Inv (alloc s) := by
  unfold alloc
  split
  · exact h
  · intro cid
    exact ⟨List.nodup_nil, fun eid => by simp⟩

theorem addComponentStore_inv (cid eid : Nat) (v : Component)
    {s1 : EcsState} (h : Inv s1)
    (hslot : s1.components cid eid = none) :
    Inv (addComponentStore cid eid (some v) s1) := by
  have hnotmem : eid ∉ s1.componentEids cid := by
    intro hm
    have hsome := ((h cid).2 eid).mpr hm
    rw [hslot] at hsome
    simp at hsome
  intro ci
  obtain ⟨hnd, hmem⟩ := h ci
  by_cases hc : ci = cid
  · subst hc
    have hlist : (addComponentStore ci eid (some v) s1).componentEids ci
        = s1.componentEids ci ++ [eid] := by
      simp [addComponentStore]
    constructor
    · rw [hlist, List.nodup_append]
      refine ⟨hnd, List.nodup_singleton eid, fun a ha hb => ?_⟩
      rw [List.mem_singleton] at hb
      subst hb
      exact hnotmem ha
    · intro e
      rw [hlist]
      by_cases he : e = eid
      · subst he
        simp [addComponentStore]
      · simpa [addComponentStore, he] using hmem e
  · refine ⟨by simpa [addComponentStore, hc] using hnd, fun e => ?_⟩
    simpa [addComponentStore, hc] using hmem e

theorem addComponent_spec (numCids cid eid : Nat) (v : Component)
    {s : EcsState} (hI : Inv s) (hc : cid < numCids)
    (he : eid < kMaxEntities) (hl : s.entities eid = true) :
    (addComponent numCids cid eid (some v) s).components cid eid = some v ∧
    ((addComponent numCids cid eid (some v) s).componentEids cid).count eid
      = 1 ∧
    Inv (addComponent numCids cid eid (some v) s) ∧
    (addComponent numCids cid eid (some v) s).entities = s.entities := by
  have hg : ¬(kMaxEntities ≤ eid ∨ s.entities eid = false ∨ numCids ≤ cid) := by
    push_neg
    exact ⟨by omega, by simp [hl], by omega⟩
  have hbody : addComponent numCids cid eid (some v) s
      = addComponentStore cid eid (some v)
          (if s.components cid eid ≠ none
           then removeComponent numCids cid eid s else s) := by
    unfold addComponent
    rw [if_neg (by simp), if_neg hg]
  rw [hbody]
  set s1 := if s.components cid eid ≠ none
            then removeComponent numCids cid eid s else s with hs1
  have hInv1 : Inv s1 := by
    rw [hs1]
    split
    · exact inv_removeComponent numCids cid eid hI
    · exact hI
  have hslot1 : s1.components cid eid = none := by
    rw [hs1]
    split
    · exact removeComponent_components_self numCids cid eid s hg
    next hne => exact not_ne_iff.mp hne
  have hent1 : s1.entities = s.entities := by
    rw [hs1]
    split
    · exact removeComponent_entities numCids cid eid s
    · rfl
  have hnotmem : eid ∉ s1.componentEids cid := by
    intro hm
    have hsome := ((hInv1 cid).2 eid).mpr hm
    rw [hslot1] at hsome
    simp at hsome
  refine ⟨by simp [addComponentStore], ?_, ?_, ?_⟩
  · simp [addComponentStore, List.count_append, List.count_eq_zero.mpr hnotmem]
  · exact addComponentStore_inv cid eid v hInv1 hslot1
  · simpa [addComponentStore] using hent1

theorem inv_addComponent (numCids cid eid : Nat) (c : Option Component)
    {s : EcsState} (h : Inv s) : Inv (addComponent numCids cid eid c s) := by
  unfold addComponent
  split
  · exact h
  next hc0 =>
    split
    · exact h
    next hg =>
      obtain ⟨v, rfl⟩ : ∃ v, c = some v := by
        cases c
        · simp at hc0
        · exact ⟨_, rfl⟩
      have hInv1 : Inv (if s.components cid eid ≠ none
          then removeComponent numCids cid eid s else s) := by
        split
        · exact inv_removeComponent numCids cid eid h
        · exact h
      have hslot1 : (if s.components cid eid ≠ none
          then removeComponent numCids cid eid s else s).components cid eid
          = none := by
        split
        · exact removeComponent_components_self numCids cid eid s hg
        next hne => exact not_ne_iff.mp hne
      exact addComponentStore_inv cid eid v hInv1 hslot1

theorem removeLoop_cons (numCids eid a : Nat) (L : List Nat) (s : EcsState) :
    removeLoop numCids eid (a :: L) s
      = removeLoop numCids eid L (removeComponent numCids a eid s) := by
  unfold removeLoop
  rw [List.foldl_cons]

theorem removeLoop_entities (numCids eid : Nat) :
    ∀ (L : List Nat) (s : EcsState),
      (removeLoop numCids eid L s).entities = s.entities := by
  intro L
  induction L with
  | nil => intro s; rfl
  | cons a L ih =>
      intro s
      rw [removeLoop_cons, ih, removeComponent_entities]

theorem inv_removeLoop (numCids eid : Nat) :
    ∀ (L : List Nat) {s : EcsState}, Inv s →
      Inv (removeLoop numCids eid L s) := by
  intro L
  induction L with
  | nil => intro s h; exact h
  | cons a L ih =>
      intro s h
      rw [removeLoop_cons]
      exact ih (inv_removeComponent numCids a eid h)

theorem inv_clearFlag (eid : Nat) {s1 : EcsState} (h : Inv s1) :
    Inv (clearFlag eid s1) :=
  h

theorem inv_destroyNow (numCids eid : Nat) {s : EcsState} (h : Inv s) :
    Inv (destroyNow numCids eid s) := by
  unfold destroyNow
  split
  · exact h
  · exact inv_clearFlag eid (inv_removeLoop numCids eid _ h)

theorem destroyLoop_cons (numCids a : Nat) (L : List Nat) (s : EcsState) :
    destroyLoop numCids (a :: L) s
      = destroyLoop numCids L
          (if s.entities a then destroyNow numCids a s else s) := by
  unfold destroyLoop
  rw [List.foldl_cons]

theorem inv_destroyLoop (numCids : Nat) :
    ∀ (L : List Nat) {s : EcsState}, Inv s →
      Inv (destroyLoop numCids L s) := by
  intro L
  induction L with
  | nil => intro s h; exact h
  | cons a L ih =>
      intro s h
      rw [destroyLoop_cons]
      refine ih ?_
      split
      · exact inv_destroyNow numCids a h
      · exact h

theorem inv_destroyAll (numCids : Nat) {s : EcsState} (h : Inv s) :
    Inv (destroyAll numCids s) :=
  inv_destroyLoop numCids _ h

theorem inv_createPost (eid : Nat) {s0 : EcsState} (h : Inv s0) :
    Inv (createPost eid s0).2 := by
  unfold createPost
  split
  · exact h
  · exact h

theorem inv_create {s : EcsState} (h : Inv s) : Inv (create s).2 := by
  unfold create
  exact inv_createPost _ (inv_alloc h)

/-- Every state reachable from the freshly allocated table satisfies the
dense-list/slot invariant. -/
theorem inv_reachable {numCids : Nat} {s : EcsState}
    (h : Reachable numCids s) : Inv s := by
  induction h with
  | init => exact inv_initAlloc
  | create _ ih => exact inv_create ih
  | destroyNow eid _ ih => exact inv_destroyNow numCids eid ih
  | destroyAll _ ih => exact inv_destroyAll numCids ih
  | addComponent cid eid c _ ih => exact inv_addComponent numCids cid eid c ih
  | removeComponent cid eid _ ih => exact inv_removeComponent numCids cid eid ih

/-! ### The create scan -/

theorem createScan_succ (ent : Nat → Bool) (fuel eid : Nat) :
    createScan ent (fuel + 1) eid
      = if eid < kMaxEntities ∧ ent eid = true
        then createScan ent fuel (eidSucc eid) else eid :=
  rfl

theorem createScan_finds (ent : Nat → Bool) (m : Nat)
    (hm : m < kMaxEntities) (hfree : ent m = false) :
    ∀ (fuel eid : Nat), eid ≤ m → m < eid + fuel →
      (∀ j, eid ≤ j → j < m → ent j = true) →
      createScan ent fuel eid = m := by
  have hm' : m < 256 := hm
  intro fuel
  induction fuel with
  | zero =>
      intro eid h1 h2 _
      omega
  | succ fuel ih =>
      intro eid h1 h2 hall
      rw [createScan_succ]
      by_cases he : eid = m
      · subst he
        rw [if_neg (by simp [hfree])]
      · have helt : eid < m := lt_of_le_of_ne h1 he
        rw [if_pos ⟨lt_trans helt hm, hall eid le_rfl helt⟩]
        have hstep : eidSucc eid = eid + 1 := by
          unfold eidSucc
          exact Nat.mod_eq_of_lt (by omega)
        rw [hstep]
        exact ih (eid + 1) (by omega) (by omega)
          (fun j hj1 hj2 => hall j (by omega) hj2)

theorem createScan_wraps (ent : Nat → Bool) (h0 : ent 0 = false)
    (hall : ∀ j, 1 ≤ j → j < kMaxEntities → ent j = true) :
    createScan ent kMaxEntities 1 = 0 := by
  have hall' : ∀ j, 1 ≤ j → j < 256 → ent j = true := hall
  have key : ∀ (k eid : Nat), 1 ≤ eid → eid + k + 1 = 256 →
      createScan ent (k + 2) eid = 0 := by
    intro k
    induction k with
    | zero =>
        intro eid h1 h2
        have he : eid = 255 := by omega
        subst he
        rw [show (0 + 2 : Nat) = 1 + 1 from rfl, createScan_succ]
        rw [if_pos ⟨by decide, hall' 255 (by decide) (by decide)⟩]
        have hw : eidSucc 255 = 0 := by decide
        rw [hw, createScan_succ]
        rw [if_neg (by simp [h0])]
    | succ k ih =>
        intro eid h1 h2
        rw [show (k + 1 + 2 : Nat) = (k + 2) + 1 from rfl, createScan_succ]
        rw [if_pos ⟨show eid < kMaxEntities from by
              show eid < 256
              omega,
            hall' eid h1 (by omega)⟩]
        have hstep : eidSucc eid = eid + 1 := by
          unfold eidSucc
          exact Nat.mod_eq_of_lt (by omega)
        rw [hstep]
        exact ih (eid + 1) (by omega) (by omega)
  show createScan ent 256 1 = 0
  have h256 : (256 : Nat) = 254 + 2 := by norm_num
  rw [h256]
  exact key 254 1 (by norm_num) (by norm_num)

/-! ### Destruction lemmas -/

theorem removeLoop_clears (numCids eid : Nat) (he : eid < kMaxEntities) :
    ∀ (L : List Nat) (s : EcsState), Inv s → s.entities eid = true →
      (∀ c, c ∉ L →
        (removeLoop numCids eid L s).components c = s.components c ∧
        (removeLoop numCids eid L s).componentEids c = s.componentEids c) ∧
      (∀ c, c ∈ L → c < numCids →
        (removeLoop numCids eid L s).components c eid = none ∧
        eid ∉ (removeLoop numCids eid L s).componentEids c) := by
  intro L
  induction L with
  | nil =>
      intro s hI hlive
      exact ⟨fun c _ => ⟨rfl, rfl⟩, fun c hc => absurd hc (List.not_mem_nil c)⟩
  | cons a L ih =>
      intro s hI hlive
      rw [removeLoop_cons]
      have hI' : Inv (removeComponent numCids a eid s) :=
        inv_removeComponent numCids a eid hI
      have hlive' : (removeComponent numCids a eid s).entities eid = true := by
        rw [removeComponent_entities]
        exact hlive
      obtain ⟨ihoff, ihmem⟩ := ih (removeComponent numCids a eid s) hI' hlive'
      constructor
      · intro c hc
        have hca : c ≠ a := fun h => hc (h ▸ List.mem_cons_self a L)
        have hcL : c ∉ L := fun h => hc (List.mem_cons_of_mem a h)
        obtain ⟨h1, h2⟩ := ihoff c hcL
        obtain ⟨h3, h4⟩ := removeComponent_offdiag numCids a eid c s hca
        exact ⟨h1.trans h3, h2.trans h4⟩
      · intro c hc hcn
        by_cases hcL : c ∈ L
        · exact ihmem c hcL hcn
        · have hca : c = a := by
            rcases List.mem_cons.mp hc with h | h
            · exact h
            · exact absurd h hcL
          subst hca
          obtain ⟨h1, h2⟩ := ihoff c hcL
          have hg : ¬(kMaxEntities ≤ eid ∨ s.entities eid = false
              ∨ numCids ≤ c) := by
            push_neg
            exact ⟨he, by simp [hlive], hcn⟩
          have hslot : (removeComponent numCids c eid s).components c eid
              = none :=
            removeComponent_components_self numCids c eid s hg
          have hnm : eid ∉ (removeComponent numCids c eid s).componentEids c := by
            intro hm
            have hsome := ((hI' c).2 eid).mpr hm
            rw [hslot] at hsome
            simp at hsome
          exact ⟨(congrFun h1 eid).trans hslot, fun hm => hnm (h2 ▸ hm)⟩

theorem destroyNow_entities_self (numCids eid : Nat) (s : EcsState)
    (h0 : eid ≠ 0) : (destroyNow numCids eid s).entities eid = false := by
  unfold destroyNow
  rw [if_neg h0]
  simp [clearFlag]

theorem destroyNow_entities_other (numCids eid i : Nat) (s : EcsState)
    (hi : i ≠ eid) : (destroyNow numCids eid s).entities i = s.entities i := by
  unfold destroyNow
  split
  · rfl
  · simp [clearFlag, hi, removeLoop_entities]

theorem removeLoop_dead (numCids eid : Nat) :
    ∀ (L : List Nat) (s : EcsState), s.entities eid = false →
      removeLoop numCids eid L s = s := by
  intro L
  induction L with
  | nil => intro s _; rfl
  | cons a L ih =>
      intro s hdead
      rw [removeLoop_cons]
      have hstep : removeComponent numCids a eid s = s := by
        unfold removeComponent
        rw [if_pos (Or.inr (Or.inl hdead))]
      rw [hstep]
      exact ih s hdead

theorem clearFlag_dead (eid : Nat) (s : EcsState)
    (hdead : s.entities eid = false) : clearFlag eid s = s := by
  have hent : (fun i => if i = eid then false else s.entities i)
      = s.entities := by
    funext i
    by_cases hi : i = eid
    · subst hi
      simp [hdead]
    · simp [hi]
  unfold clearFlag
  rw [hent]

theorem destroyNow_dead_eq (numCids eid : Nat) (s : EcsState)
    (hdead : s.entities eid = false) : destroyNow numCids eid s = s := by
  unfold destroyNow
  split
  · rfl
  · rw [removeLoop_dead numCids eid _ s hdead]
    exact clearFlag_dead eid s hdead

theorem destroyLoop_dead (numCids : Nat) :
    ∀ (L : List Nat) (s : EcsState) (e : Nat), s.entities e = false →
      (destroyLoop numCids L s).entities e = false := by
  intro L
  induction L with
  | nil => intro s e h; exact h
  | cons a L ih =>
      intro s e h
      rw [destroyLoop_cons]
      refine ih _ e ?_
      split
      next hlive =>
        by_cases hae : e = a
        · subst hae
          simp [h] at hlive
        · rw [destroyNow_entities_other numCids a e s hae]
          exact h
      next hlive => exact h

theorem destroyLoop_kills (numCids : Nat) :
    ∀ (L : List Nat) (s : EcsState), (∀ e ∈ L, e ≠ 0) →
      ∀ e ∈ L, (destroyLoop numCids L s).entities e = false := by
  intro L
  induction L with
  | nil => intro s _ e he; exact absurd he (List.not_mem_nil e)
  | cons a L ih =>
      intro s hpos e he
      rw [destroyLoop_cons]
      by_cases heL : e ∈ L
      · exact ih _ (fun x hx => hpos x (List.mem_cons_of_mem a hx)) e heL
      · have hea : e = a := by
          rcases List.mem_cons.mp he with h | h
          · exact h
          · exact absurd h heL
        subst hea
        refine destroyLoop_dead numCids L _ e ?_
        split
        next hlive =>
          exact destroyNow_entities_self numCids e s
            (hpos e (List.mem_cons_self e L))
        next hlive => simpa using hlive

theorem destroyAll_kills (numCids eid : Nat) (s : EcsState)
    (h1 : 1 ≤ eid) (he : eid < kMaxEntities) :
    (destroyAll numCids s).entities eid = false := by
  have hk : kMaxEntities = 256 := rfl
  have he' : eid < 256 := he
  unfold destroyAll
  rw [hk]
  refine destroyLoop_kills numCids _ s ?_ eid ?_
  · intro e heL
    have hb := List.mem_range'_1.mp heL
    omega
  · exact List.mem_range'_1.mpr ⟨h1, by omega⟩

/-! ### Reachability of the concrete states -/

theorem reachable_stateA : Reachable 2 stateA :=
  Reachable.create Reachable.init

theorem reachable_stateB : Reachable 2 stateB :=
  Reachable.addComponent 0 1 (some 7) reachable_stateA

theorem inv_stateA : Inv stateA :=
  inv_reachable reachable_stateA

theorem inv_stateB : Inv stateB :=
  inv_reachable reachable_stateB

/-! ### The claims -/

/-- C1: in a state in which all entity identifiers in `[1, kMaxEntities)`
are live (and entity 0 is, as always, not live), a further `create()`
returns the invalid-entity sentinel `0`, leaves the state unchanged, and
in particular leaves the number of live entities unchanged. -/
theorem create_exhausted_returns_zero (s : EcsState)
    (hA : s.allocated = true) (h0 : s.entities 0 = false)
    (hfull : ∀ eid, eid < kMaxEntities → 1 ≤ eid → s.entities eid = true) :
    (create s).1 = 0 ∧ (create s).2 = s ∧ count (create s).2 = count s := by
  have hAs : alloc s = s := by simp [alloc, hA]
  have hscan : createScan s.entities kMaxEntities 1 = 0 :=
    createScan_wraps s.entities h0 (fun j hj1 hj2 => hfull j hj2 hj1)
  unfold create
  rw [hAs, hscan]
  unfold createPost
  rw [if_pos (Or.inl Nat.zero_lt_one)]
  exact ⟨rfl, rfl, rfl⟩

theorem create_exhausted_returns_zero_witness :
    (create stateFull).1 = 0 ∧ (create stateFull).2 = stateFull ∧
      count (create stateFull).2 = count stateFull :=
  create_exhausted_returns_zero stateFull rfl rfl
    (fun eid he h1 => by
      show (decide (1 ≤ eid) && decide (eid < 256)) = true
      rw [Bool.and_eq_true, decide_eq_true_eq, decide_eq_true_eq]
      exact ⟨h1, he⟩)

/-- C2: in a state with at least one non-live identifier in
`[1, kMaxEntities)`, `create()` returns the lowest identifier `m` that was
not live before the call, marks exactly it live, and changes no other
liveness flag. -/
theorem create_returns_lowest_free (s : EcsState) (m : Nat)
    (hA : s.allocated = true) (h1 : 1 ≤ m) (hm : m < kMaxEntities)
    (hfree : s.entities m = false)
    (hbelow : ∀ j, j < m → 1 ≤ j → s.entities j = true) :
    (create s).1 = m ∧ (create s).2.entities m = true ∧
      ∀ i, i ≠ m → (create s).2.entities i = s.entities i := by
  have hAs : alloc s = s := by simp [alloc, hA]
  have hm' : m < 256 := hm
  have hscan : createScan s.entities kMaxEntities 1 = m :=
    createScan_finds s.entities m hm hfree kMaxEntities 1 h1
      (show m < 1 + 256 by omega)
      (fun j hj1 hj2 => hbelow j hj2 hj1)
  unfold create
  rw [hAs, hscan]
  unfold createPost
  rw [if_neg (by push_neg; exact ⟨h1, hm⟩)]
  exact ⟨rfl, by simp, fun i hi => by simp [hi]⟩

theorem create_returns_lowest_free_witness :
    (create stateA).1 = 2 ∧ (create stateA).2.entities 2 = true ∧
      ∀ i, i ≠ 2 → (create stateA).2.entities i = stateA.entities i :=
  create_returns_lowest_free stateA 2 (by decide) (by norm_num) (by decide)
    (by decide)
    (fun j hj hj1 => by
      have hj' : j = 1 := by omega
      subst hj'
      decide)

/-- C3: in every state reachable from the freshly allocated one by any
sequence of create / destroyNow / destroyAll / addComponent /
removeComponent, and for every in-range `cid` and `eid`: the slot
`(cid, eid)` is occupied iff `eid` occurs exactly once in the dense
id-list for `cid`; equivalently `eid` is in `getAll cid` iff
`getComponent cid eid` is non-empty. -/
theorem reachable_slot_list_consistent (numCids cid eid : Nat)
    (s : EcsState) (hR : Reachable numCids s) (hc : cid < numCids)
    (he : eid < kMaxEntities) :
    ((s.components cid eid).isSome = true ↔
      (s.componentEids cid).count eid = 1) ∧
    (eid ∈ getAll numCids cid s ↔
      (getComponent numCids cid eid s).isSome = true) := by
  obtain ⟨hnd, hmem⟩ := inv_reachable hR cid
  have hga : getAll numCids cid s = s.componentEids cid := by
    unfold getAll
    rw [if_pos hc]
  have hgc : getComponent numCids cid eid s = s.components cid eid := by
    unfold getComponent
    rw [if_pos ⟨he, hc⟩]
  constructor
  · constructor
    · intro hsome
      exact List.count_eq_one_of_mem hnd ((hmem eid).mp hsome)
    · intro hcount
      refine (hmem eid).mpr (List.count_pos_iff.mp ?_)
      omega
  · rw [hga, hgc]
    exact (hmem eid).symm

theorem reachable_slot_list_consistent_witness :
    ((stateB.components 0 1).isSome = true ↔
      (stateB.componentEids 0).count 1 = 1) ∧
    (1 ∈ getAll 2 0 stateB ↔ (getComponent 2 0 1 stateB).isSome = true) :=
  reachable_slot_list_consistent 2 0 1 stateB reachable_stateB
    (by norm_num) (by decide)

/-- C4: destroying a live in-range entity clears its liveness flag,
empties its slot for every registered component type, and removes it from
every registered dense id-list; moreover the removal loop runs while the
liveness flag is still set, i.e. all detachment happens before the flag is
cleared. -/
theorem destroyNow_cascades (numCids cid eid : Nat) (s : EcsState)
    (hI : Inv s) (hc : cid < numCids) (h1 : 1 ≤ eid)
    (he : eid < kMaxEntities) (hlive : s.entities eid = true) :
    (destroyNow numCids eid s).entities eid = false ∧
    getComponent numCids cid eid (destroyNow numCids eid s) = none ∧
    eid ∉ getAll numCids cid (destroyNow numCids eid s) ∧
    (removeLoop numCids eid (List.range numCids) s).entities eid = true := by
  obtain ⟨hoff, hmem⟩ :=
    removeLoop_clears numCids eid he (List.range numCids) s hI hlive
  obtain ⟨hslot, hnm⟩ := hmem cid (List.mem_range.mpr hc) hc
  have h0 : eid ≠ 0 := by omega
  have hdn : destroyNow numCids eid s
      = clearFlag eid (removeLoop numCids eid (List.range numCids) s) := by
    unfold destroyNow
    rw [if_neg h0]
  refine ⟨destroyNow_entities_self numCids eid s h0, ?_, ?_, ?_⟩
  · rw [hdn]
    unfold getComponent
    rw [if_pos ⟨he, hc⟩]
    exact hslot
  · rw [hdn]
    unfold getAll
    rw [if_pos hc]
    exact hnm
  · rw [removeLoop_entities]
    exact hlive

theorem destroyNow_cascades_witness :
    (destroyNow 2 1 stateB).entities 1 = false ∧
    getComponent 2 0 1 (destroyNow 2 1 stateB) = none ∧
    1 ∉ getAll 2 0 (destroyNow 2 1 stateB) ∧
    (removeLoop 2 1 (List.range 2) stateB).entities 1 = true :=
  destroyNow_cascades 2 0 1 stateB inv_stateB (by norm_num) (by norm_num)
    (by decide) (by decide)

/-- C5: for an in-range `cid` and live in-range `eid` whose slot is empty,
`removeComponent` leaves the whole state unchanged; after any
`removeComponent` the slot is empty, and a second identical call is a
no-op, so the operation is idempotent. -/
theorem removeComponent_absent_noop (numCids cid eid : Nat) (s : EcsState)
    (hc : cid < numCids) (he : eid < kMaxEntities)
    (hlive : s.entities eid = true) :
    (s.components cid eid = none → removeComponent numCids cid eid s = s) ∧
    (removeComponent numCids cid eid s).components cid eid = none ∧
    removeComponent numCids cid eid (removeComponent numCids cid eid s)
      = removeComponent numCids cid eid s := by
  have hg : ¬(kMaxEntities ≤ eid ∨ s.entities eid = false
      ∨ numCids ≤ cid) := by
    push_neg
    exact ⟨he, by simp [hlive], hc⟩
  have hempty : ∀ t : EcsState, t.components cid eid = none →
      removeComponent numCids cid eid t = t := by
    intro t ht
    unfold removeComponent
    rw [ht]
    simp
  refine ⟨fun hnone => hempty s hnone, ?_, ?_⟩
  · exact removeComponent_components_self numCids cid eid s hg
  · exact hempty _ (removeComponent_components_self numCids cid eid s hg)

theorem removeComponent_absent_noop_witness :
    removeComponent 2 1 1 stateB = stateB ∧
    (removeComponent 2 1 1 stateB).components 1 1 = none ∧
    removeComponent 2 1 1 (removeComponent 2 1 1 stateB)
      = removeComponent 2 1 1 stateB :=
  ⟨(removeComponent_absent_noop 2 1 1 stateB (by norm_num) (by decide)
      (by decide)).1 (by decide),
   (removeComponent_absent_noop 2 1 1 stateB (by norm_num) (by decide)
      (by decide)).2.1,
   (removeComponent_absent_noop 2 1 1 stateB (by norm_num) (by decide)
      (by decide)).2.2⟩

/-- C6: in checked mode, `getComponent` returns empty for any out-of-range
`eid` or `cid` without consulting the tables, and returns the content of
slot `(cid, eid)` for every in-range pair. -/
theorem getComponent_checked (numCids cid eid : Nat) (s : EcsState) :
    ((kMaxEntities ≤ eid ∨ numCids ≤ cid) →
      getComponent numCids cid eid s = none) ∧
    (eid < kMaxEntities → cid < numCids →
      getComponent numCids cid eid s = s.components cid eid) := by
  constructor
  · intro h
    unfold getComponent
    rw [if_neg (fun hcon => h.elim
      (fun hh => Nat.not_lt.mpr hh hcon.1)
      (fun hh => Nat.not_lt.mpr hh hcon.2))]
  · intro h1 h2
    unfold getComponent
    rw [if_pos ⟨h1, h2⟩]

theorem getComponent_checked_witness :
    getComponent 2 0 300 initState = none ∧
    getComponent 2 0 1 initState = initState.components 0 1 :=
  ⟨(getComponent_checked 2 0 300 initState).1 (Or.inl (by decide)),
   (getComponent_checked 2 0 1 initState).2 (by decide) (by norm_num)⟩

/-- C7: attaching a non-empty component to a live in-range entity leaves
exactly that instance in the slot with `eid` occurring exactly once in the
dense list; attaching again with a new instance first removes the old one,
leaving exactly the new instance and still a single dense-list entry. -/
theorem addComponent_replaces_old (numCids cid eid : Nat) (v w : Component)
    (s : EcsState) (hI : Inv s) (hc : cid < numCids)
    (he : eid < kMaxEntities) (hlive : s.entities eid = true) :
    (addComponent numCids cid eid (some v) s).components cid eid = some v ∧
    ((addComponent numCids cid eid (some v) s).componentEids cid).count eid
      = 1 ∧
    (addComponent numCids cid eid (some w)
      (addComponent numCids cid eid (some v) s)).components cid eid
      = some w ∧
    ((addComponent numCids cid eid (some w)
      (addComponent numCids cid eid (some v) s)).componentEids cid).count eid
      = 1 := by
  obtain ⟨ha1, ha2, ha3, ha4⟩ := addComponent_spec numCids cid eid v hI hc he hlive
  have hlive2 : (addComponent numCids cid eid (some v) s).entities eid
      = true := by
    rw [ha4]
    exact hlive
  obtain ⟨hb1, hb2, _, _⟩ := addComponent_spec numCids cid eid w ha3 hc he hlive2
  exact ⟨ha1, ha2, hb1, hb2⟩

theorem addComponent_replaces_old_witness :
    (addComponent 2 0 1 (some 5) stateA).components 0 1 = some 5 ∧
    ((addComponent 2 0 1 (some 5) stateA).componentEids 0).count 1 = 1 ∧
    (addComponent 2 0 1 (some 9)
      (addComponent 2 0 1 (some 5) stateA)).components 0 1 = some 9 ∧
    ((addComponent 2 0 1 (some 9)
      (addComponent 2 0 1 (some 5) stateA)).componentEids 0).count 1 = 1 :=
  addComponent_replaces_old 2 0 1 5 9 stateA inv_stateA (by norm_num)
    (by decide) (by decide)

/-- C8: removing an occupied slot's component erases exactly one
occurrence of `eid` from the dense id-list for `cid` (the list held
exactly one, the result holds none), and the surviving elements keep
their relative order (the new list is the stable `erase` of the old,
a sublist of it). -/
theorem removeComponent_erases_once (numCids cid eid : Nat) (v : Component)
    (s : EcsState) (hI : Inv s) (hc : cid < numCids)
    (he : eid < kMaxEntities) (hlive : s.entities eid = true)
    (hocc : s.components cid eid = some v) :
    (removeComponent numCids cid eid s).componentEids cid
      = (s.componentEids cid).erase eid ∧
    List.Sublist ((removeComponent numCids cid eid s).componentEids cid)
      (s.componentEids cid) ∧
    (s.componentEids cid).count eid = 1 ∧
    ((removeComponent numCids cid eid s).componentEids cid).count eid
      = 0 := by
  have hg : ¬(kMaxEntities ≤ eid ∨ s.entities eid = false
      ∨ numCids ≤ cid) := by
    push_neg
    exact ⟨he, by simp [hlive], hc⟩
  have hne : ¬(s.components cid eid = none) := by simp [hocc]
  have hlist : (removeComponent numCids cid eid s).componentEids cid
      = (s.componentEids cid).erase eid := by
    unfold removeComponent
    rw [if_neg hg, if_neg hne]
    simp
  obtain ⟨hnd, hmem⟩ := hI cid
  have hm : eid ∈ s.componentEids cid := (hmem eid).mp (by simp [hocc])
  refine ⟨hlist, ?_, ?_, ?_⟩
  · rw [hlist]
    exact List.erase_sublist eid (s.componentEids cid)
  · exact List.count_eq_one_of_mem hnd hm
  · rw [hlist]
    exact List.count_eq_zero.mpr hnd.not_mem_erase

theorem removeComponent_erases_once_witness :
    (removeComponent 2 0 1 stateB).componentEids 0
      = (stateB.componentEids 0).erase 1 ∧
    List.Sublist ((removeComponent 2 0 1 stateB).componentEids 0)
      (stateB.componentEids 0) ∧
    (stateB.componentEids 0).count 1 = 1 ∧
    ((removeComponent 2 0 1 stateB).componentEids 0).count 1 = 0 :=
  removeComponent_erases_once 2 0 1 7 stateB inv_stateB (by norm_num)
    (by decide) (by decide) (by decide)

/-- C9: releasing and re-allocating yields a table with zero live entities
and an empty dense list for every `cid`; the release path destroys every
live in-range entity (via `destroyAll`) before freeing, and releasing the
never-allocated state is a no-op. -/
theorem dealloc_alloc_resets (numCids cid eid : Nat) (s : EcsState) :
    count (alloc (dealloc numCids s)) = 0 ∧
    getAll numCids cid (alloc (dealloc numCids s)) = [] ∧
    (1 ≤ eid → eid < kMaxEntities →
      (destroyAll numCids s).entities eid = false) ∧
    dealloc numCids initState = initState := by
  have hde : dealloc numCids s = initState := by
    unfold dealloc
    split <;> rfl
  refine ⟨?_, ?_, fun hh1 hh2 => destroyAll_kills numCids eid s hh1 hh2, ?_⟩
  · rw [hde]
    unfold count
    refine List.countP_eq_zero.mpr ?_
    intro a _
    simp [alloc, initState]
  · rw [hde]
    unfold getAll
    split <;> rfl
  · unfold dealloc
    split <;> rfl

theorem dealloc_alloc_resets_witness :
    count (alloc (dealloc 2 stateB)) = 0 ∧
    getAll 2 0 (alloc (dealloc 2 stateB)) = [] ∧
    (destroyAll 2 stateB).entities 5 = false ∧
    dealloc 2 initState = initState :=
  ⟨(dealloc_alloc_resets 2 0 5 stateB).1,
   (dealloc_alloc_resets 2 0 5 stateB).2.1,
   (dealloc_alloc_resets 2 0 5 stateB).2.2.1 (by norm_num) (by decide),
   (dealloc_alloc_resets 2 0 5 stateB).2.2.2⟩

/-- C10: destroying an in-range identifier that is not live leaves the
whole state unchanged, and `destroyNow` is idempotent on in-range
identifiers: a second consecutive call adds nothing. -/
theorem destroyNow_nonlive_noop (numCids eid : Nat) (s : EcsState)
    (h1 : 1 ≤ eid) (_he : eid < kMaxEntities) :
    (s.entities eid = false → destroyNow numCids eid s = s) ∧
    destroyNow numCids eid (destroyNow numCids eid s)
      = destroyNow numCids eid s := by
  have h0 : eid ≠ 0 := by omega
  refine ⟨fun hdead => destroyNow_dead_eq numCids eid s hdead, ?_⟩
  exact destroyNow_dead_eq numCids eid _
    (destroyNow_entities_self numCids eid s h0)

theorem destroyNow_nonlive_noop_witness :
    destroyNow 2 5 (alloc initState) = alloc initState ∧
    destroyNow 2 5 (destroyNow 2 5 (alloc initState))
      = destroyNow 2 5 (alloc initState) :=
  ⟨(destroyNow_nonlive_noop 2 5 (alloc initState) (by norm_num)
      (by decide)).1 rfl,
   (destroyNow_nonlive_noop 2 5 (alloc initState) (by norm_num)
      (by decide)).2⟩

end Entity
